import Mathlib

/-
Verification of the hypergopher/hypergo view-rendering layer.

The Go code is shallowly embedded: Go maps become association lists
(assignment replaces the first matching key), the http.ResponseWriter
becomes an explicit record threaded through each operation, and the
template engine (external to this library) is an oracle attached to each
compiled template.  Where the repository ships only tests or callers of a
type (the Response builder, the request/htmx header helpers), the
definition is modelled from the spec and marked as such in its doc
comment; everything else is translated from the source files.
-/

set_option autoImplicit false

/-- Go map lookup, modelled on an association list: first binding wins. -/
def lookupKey {α : Type} : List (String × α) → String → Option α
  | [], _ => none
  | (k, v) :: rest, key => if k = key then some v else lookupKey rest key

/-- Go map assignment: replace the first binding of the key, or append. -/
def setKey {α : Type} : List (String × α) → String → α → List (String × α)
  | [], key, v => [(key, v)]
  | (k, w) :: rest, key, v =>
      if k = key then (key, v) :: rest else (k, w) :: setKey rest key v

/-- Values stored in a Go map of type map of string to any, restricted to the
shapes this library actually stores: strings, string-to-string maps, the
view-data object itself (the View self reference), and other opaque data. -/
inductive JValue where
  | str (s : String)
  | smap (m : List (String × String))
  | view
  | other (n : Nat)
deriving DecidableEq

/-- The client-visible state accumulated on an http.ResponseWriter: the
header map, the status line (none until WriteHeader runs; Go ignores every
WriteHeader after the first), and the body bytes written so far. -/
structure HTTPWriter where
  headers : List (String × String)
  status : Option Nat
  body : String
deriving DecidableEq

/-- A fresh recorder, as handed to a handler before any write. -/
def HTTPWriter.empty : HTTPWriter := ⟨[], none, ""⟩

/-- Header().Set on the writer. -/
def headerSet (w : HTTPWriter) (k v : String) : HTTPWriter :=
  { w with headers := setKey w.headers k v }

/-- WriteHeader: records the status code once; later calls are ignored. -/
def writeHeader (w : HTTPWriter) (code : Nat) : HTTPWriter :=
  match w.status with
  | some _ => w
  | none => { w with status := some code }

/-- Write: an implicit WriteHeader 200 on first write, then append bytes. -/
def writeBody (w : HTTPWriter) (s : String) : HTTPWriter :=
  let w := writeHeader w 200
  { w with body := w.body ++ s }

/-- Go http.Error: plain-text content type, nosniff, status, message line. -/
def httpError (w : HTTPWriter) (msg : String) (code : Nat) : HTTPWriter :=
  let w := headerSet w "Content-Type" "text/plain; charset=utf-8"
  let w := headerSet w "X-Content-Type-Options" "nosniff"
  writeBody (writeHeader w code) (msg ++ "\n")

/-- The part of an inbound http.Request this layer reads. -/
structure Request where
  method : String
  headers : List (String × String)

/-- Header.Get on the request: empty string when the header is absent. -/
def Request.headerGet (r : Request) (k : String) : String :=
  (lookupKey r.headers k).getD ""

/-- Modelled from the spec: the htmx helper package is absent from src
(only its tests remain).  Spec 4.1: the predicate is the AND-NOT
combination of the two boolean-ish headers, true when HX-Request is set
and HX-Boosted is not. -/
def IsHtmxRequest (r : Request) : Bool :=
  (r.headerGet "HX-Request" != "") && (r.headerGet "HX-Boosted" == "")

/-- Modelled from the spec: true when the HX-Boosted header is set. -/
def IsBoostedRequest (r : Request) : Bool :=
  r.headerGet "HX-Boosted" != ""

/-- Modelled from the spec: pure OR of the two htmx headers. -/
def IsAnyHtmxRequest (r : Request) : Bool :=
  (r.headerGet "HX-Request" != "") || (r.headerGet "HX-Boosted" != "")

/-- Modelled from the spec: the request helper package is absent from src.
The consumed-headers table lists X-Requested-With, and the tests flag an
XMLHttpRequest by setting it to the literal value XMLHttpRequest. -/
def IsXMLHttpRequest (r : Request) : Bool :=
  r.headerGet "X-Requested-With" == "XMLHttpRequest"

/-- Modelled from the spec: the Response builder source is absent from src
(only its callers are).  Fields follow spec section 3: template path,
layout name, status code (0 = unset), header map, page-data map (an
optional list models the nil Go map). -/
structure Response where
  templatePath : String
  templateLayout : String
  status : Nat
  headers : List (String × String)
  pageData : Option (List (String × JValue))

/-- NewResponse: the zero-valued builder. -/
def NewResponse : Response := ⟨"", "", 0, [], none⟩

/-- Response.Path sets the template path. -/
def Response.Path (resp : Response) (p : String) : Response :=
  { resp with templatePath := p }

/-- Response.Layout sets the layout name. -/
def Response.Layout (resp : Response) (l : String) : Response :=
  { resp with templateLayout := l }

/-- Response.Status sets the numeric status code. -/
def Response.Status (resp : Response) (code : Nat) : Response :=
  { resp with status := code }

/-- Response.StatusError: the named convenience setter for 500. -/
def Response.StatusError (resp : Response) : Response :=
  resp.Status 500

/-- Response.Header attaches a single header key/value. -/
def Response.Header (resp : Response) (k v : String) : Response :=
  { resp with headers := setKey resp.headers k v }

/-- Response.HTTPHeader().Get(k): the accumulated header value, or empty. -/
def Response.headerGet (resp : Response) (k : String) : String :=
  (lookupKey resp.headers k).getD ""

/-- Response.Errors attaches an error message and a field-error map;
modelled from the spec as writing the Error and Errors keys of the page
data, matching Data.AddErrors in the source. -/
def Response.Errors (resp : Response) (msg : String)
    (fieldErrors : List (String × String)) : Response :=
  let pd := resp.pageData.getD []
  let pd := setKey pd "Error" (JValue.str msg)
  let pd := setKey pd "Errors" (JValue.smap fieldErrors)
  { resp with pageData := some pd }

/-- The view-data object of response/data.go: title, bound request and the
page-data map (none models the nil Go map). -/
structure Data where
  title : String
  pageData : Option (List (String × JValue))

/-- initData from the source: replace a nil map by a fresh empty one, then
default the Error key to the empty string and the Errors key to an empty
string map, each only when absent. -/
def initData (data : Option (List (String × JValue))) : List (String × JValue) :=
  let d := data.getD []
  let d := if (lookupKey d "Error").isSome then d else setKey d "Error" (JValue.str "")
  if (lookupKey d "Errors").isSome then d else setKey d "Errors" (JValue.smap [])

/-- NewData from the source: normalize the page data through initData. -/
def NewData (pageData : Option (List (String × JValue))) : Data :=
  ⟨"", some (initData pageData)⟩

/-- Data.Data() from the source: re-run initData on the held page data and
bind the View key to the Data object itself (the view constructor marks
that self reference). -/
def Data.dataMap (v : Data) : List (String × JValue) :=
  setKey (initData v.pageData) "View" JValue.view

/-- Modelled from the spec: Response.ViewData materializes the view-data
object, binding the live request and the accumulated page data; the
request does not influence the data map itself. -/
def Response.ViewData (resp : Response) (_ : Request) : Data :=
  ⟨"", resp.pageData⟩

/-- Suffix of the character list after its last dot, together with the part
before it; none when no dot occurs.  The returned suffix starts with the
dot, matching strings.LastIndex slicing in Go. -/
def splitAtLastDot : List Char → Option (List Char × List Char)
  | [] => none
  | c :: cs =>
    match splitAtLastDot cs with
    | some (pre, suf) => some (c :: pre, suf)
    | none => if c = '.' then some ([], c :: cs) else none

/-- strings.LastIndex(path, ".") slicing: the prefix before the last dot
and the suffix from the dot on. -/
def lastDotSplit (s : String) : Option (String × String) :=
  (splitAtLastDot s.data).map (fun pr => (String.mk pr.1, String.mk pr.2))

/-- Characters after the last slash (the file name of a slash path). -/
def afterLastSlash : List Char → List Char
  | [] => []
  | c :: cs =>
    if c = '/' then afterLastSlash cs
    else if cs.contains '/' then afterLastSlash cs
    else c :: cs

/-- filepath.Ext: the suffix of the file name from its last dot, empty when
the file name has no dot. -/
def filepathExt (p : String) : String :=
  match splitAtLastDot (afterLastSlash p.data) with
  | some pr => String.mk pr.2
  | none => ""

/-- strings.TrimSuffix(path, filepath.Ext(path)): the extension computed by
filepathExt is a suffix of the path, so trimming drops that many trailing
characters. -/
def trimExt (p : String) : String :=
  String.mk (p.data.take (p.data.length - (filepathExt p).data.length))

/-- JSON string literal; escaping of special characters inside the string
is not modelled (no claim depends on it). -/
def jstr (s : String) : String := "\"" ++ s ++ "\""

/-- Insertion of a keyed pair into a key-sorted list, mirroring that
encoding/json serializes Go maps in ascending key order. -/
def insertByKey {α : Type} (p : String × α) : List (String × α) → List (String × α)
  | [] => [p]
  | q :: rest =>
    if compare p.1 q.1 == Ordering.gt then q :: insertByKey p rest else p :: q :: rest

/-- Sort an association list by key for serialization. -/
def sortByKey {α : Type} (l : List (String × α)) : List (String × α) :=
  l.foldr insertByKey []

/-- Serialization of a string-to-string map, compact form with keys in
ascending order as encoding/json produces. -/
def jsonStringMap (m : List (String × String)) : String :=
  "\x7b" ++
    String.intercalate ","
      ((sortByKey m).map (fun kv => jstr kv.1 ++ ":" ++ jstr kv.2)) ++
  "\x7d"

/-- Serialization of one stored value.  The view self reference is a Go
struct with no exported fields, which encoding/json renders as an empty
object. -/
def jvalueMarshal : JValue → String
  | JValue.str s => jstr s
  | JValue.smap m => jsonStringMap m
  | JValue.view => "\x7b\x7d"
  | JValue.other n => toString n

/-- Serialization of a string-keyed map of values, keys ascending. -/
def jsonValueMap (m : List (String × JValue)) : String :=
  "\x7b" ++
    String.intercalate ","
      ((sortByKey m).map (fun kv => jstr kv.1 ++ ":" ++ jvalueMarshal kv.2)) ++
  "\x7d"

/-- The fixed JSON envelope of json.go: status tag, message, payload (none
models a nil payload, serialized as null) and numeric code with omitempty
semantics. -/
structure Envelope where
  status : String
  message : String
  data : Option (List (String × JValue))
  code : Nat
deriving DecidableEq

/-- MarshalIndent of the envelope; field order follows the struct and a
zero code is omitted.  The indentation whitespace of MarshalIndent is not
modelled (no claim depends on it). -/
def envelopeMarshal (e : Envelope) : String :=
  "\x7b\"status\":" ++ jstr e.status ++
  ",\"message\":" ++ jstr e.message ++
  ",\"data\":" ++ (match e.data with
                   | none => "null"
                   | some m => jsonValueMap m) ++
  (if e.code = 0 then "" else ",\"code\":" ++ toString e.code) ++
  "\x7d"

/-- JSONWithHeaders from json.go: serialize, apply the caller headers, set
the JSON content type, write the status then the body.  Serialization of
the first-order envelope is total in the model, so the error return of the
Go function is always nil here. -/
def JSONWithHeaders (w : HTTPWriter) (status : Nat) (e : Envelope)
    (headers : List (String × String)) : HTTPWriter :=
  let js := envelopeMarshal e ++ "\n"
  let w := headers.foldl (fun w kv => headerSet w kv.1 kv.2) w
  let w := headerSet w "Content-Type" "application/json; charset=UTF-8"
  writeBody (writeHeader w status) js

/-- The envelope JSONFailure constructs: fail tag, caller message, payload,
and the status echoed into the code field. -/
def JSONFailureEnv (data : Option (List (String × JValue))) (message : String)
    (status : Nat) : Envelope :=
  ⟨"fail", message, data, status⟩

/-- JSONFailure from json.go. -/
def JSONFailure (w : HTTPWriter) (data : Option (List (String × JValue)))
    (message : String) (status : Nat) (headers : List (String × String)) : HTTPWriter :=
  JSONWithHeaders w status (JSONFailureEnv data message status) headers

/-- The envelope JSONSuccessWithStatus constructs: success tag, fixed
Success message, payload, and the status echoed into the code field. -/
def JSONSuccessEnv (data : Option (List (String × JValue))) (status : Nat) : Envelope :=
  ⟨"success", "Success", data, status⟩

/-- JSONSuccessWithStatus from json.go. -/
def JSONSuccessWithStatus (w : HTTPWriter) (status : Nat)
    (data : Option (List (String × JValue))) (headers : List (String × String)) : HTTPWriter :=
  JSONWithHeaders w status (JSONSuccessEnv data status) headers

/-- JSONAdapter.Render: default a zero status to 200, route statuses above
299 through the fail envelope with the page data as payload, and everything
else through the success envelope.  The serialization-failure escalation
branches of the source are unreachable here because the model serializer is
total. -/
def JSONAdapterRender (w : HTTPWriter) (r : Request) (resp : Response) : HTTPWriter :=
  let resp := if resp.status = 0 then resp.Status 200 else resp
  if 299 < resp.status then
    JSONFailure w (some ((resp.ViewData r).dataMap)) "Failure" resp.status resp.headers
  else
    JSONSuccessWithStatus w resp.status (some ((resp.ViewData r).dataMap)) resp.headers

/-- An entry of the HyperView adapter registry, abstracted to what the
facade observes: the result of Init and the render behavior. -/
structure HVAdapter where
  initRes : Except String Unit
  render : HTTPWriter → Request → Response → HTTPWriter

/-- The dispatch facade: the named adapter registry and the two configured
layout names.  The sync.RWMutex only serializes access to the registry and
has no observable effect on the sequential semantics modelled here. -/
structure HyperView where
  adapters : List (String × HVAdapter)
  baseLayout : String
  systemLayout : String

/-- RegisterAdapter: store the adapter under the name, then call Init on
the freshly stored entry and return its result. -/
def HyperView.RegisterAdapter (s : HyperView) (name : String) (ad : HVAdapter) :
    HyperView × Except String Unit :=
  let s := { s with adapters := setKey s.adapters name ad }
  (s, match lookupKey s.adapters name with
      | some a => a.initRes
      | none => Except.ok ())

/-- Adapter: registry lookup by name. -/
def HyperView.Adapter (s : HyperView) (name : String) : Option HVAdapter :=
  lookupKey s.adapters name

/-- adapterFor: an empty key defaults to html; a missing adapter writes the
500 Adapter-not-found diagnostic to the client. -/
def HyperView.adapterFor (s : HyperView) (w : HTTPWriter) (key : String) :
    Option HVAdapter × HTTPWriter :=
  let key := if key == "" then "html" else key
  match s.Adapter key with
  | none => (none, httpError w "Adapter not found" 500)
  | some ad => (some ad, w)

/-- RenderAs: resolve the adapter, default an unset layout to the base
layout, and delegate. -/
def HyperView.RenderAs (s : HyperView) (w : HTTPWriter) (r : Request)
    (key : String) (resp : Response) : HTTPWriter :=
  match s.adapterFor w key with
  | (none, w) => w
  | (some ad, w) =>
    let resp := if resp.templateLayout == "" then resp.Layout s.baseLayout else resp
    ad.render w r resp

/-- The Go byte slice ext[1:] on an extension string: everything after the
leading dot character. -/
def strTail (s : String) : String := String.mk s.data.tail

/-- The trailing extension HyperView.Render extracts (dot included, as in
the Go slice from strings.LastIndex), empty when the path has no dot. -/
def renderExt (resp : Response) : String :=
  match lastDotSplit resp.templatePath with
  | none => ""
  | some pr => pr.2

/-- The response after HyperView.Render strips the extension from the
template path. -/
def renderStripped (resp : Response) : Response :=
  match lastDotSplit resp.templatePath with
  | none => resp
  | some pr => resp.Path pr.1

/-- HyperView.Render: strip a trailing extension from the template path,
then pick the json adapter on an application/json content type, the html
adapter on an empty or .html extension, and otherwise the adapter named by
the extension without its dot. -/
def HyperView.Render (s : HyperView) (w : HTTPWriter) (r : Request)
    (resp : Response) : HTTPWriter :=
  let ext := renderExt resp
  let resp := renderStripped resp
  if resp.headerGet "Content-Type" == "application/json" then
    s.RenderAs w r "json" resp
  else if ext == "" || ext == ".html" then
    s.RenderAs w r "html" resp
  else
    s.RenderAs w r (strTail ext) resp

/-- HxRedirect: HX-Redirect header, 303, fixed placeholder body. -/
def HyperView.HxRedirect (_ : HyperView) (w : HTTPWriter) (url : String) : HTTPWriter :=
  writeBody (writeHeader (headerSet w "HX-Redirect" url) 303) "redirecting..."

/-- The body json.Marshal produces for the redirect map: compact, keys in
ascending order. -/
def redirectJSONBody (url : String) : String :=
  jsonStringMap [("status", "redirect"), ("message", "redirecting..."), ("url", url)]

/-- http.StatusText for the codes this layer emits. -/
def statusText (code : Nat) : String :=
  if code = 302 then "Found" else if code = 303 then "See Other" else ""

/-- Go http.Redirect: set Location, and for a GET request without a
preexisting content type also set the html content type and write the
hyperlink body (URL munging of relative targets and html escaping are not
modelled; claims use absolute, escape-free URLs). -/
def httpRedirect (w : HTTPWriter) (r : Request) (url : String) (code : Nat) : HTTPWriter :=
  let hadCT := (lookupKey w.headers "Content-Type").isSome
  let w := headerSet w "Location" url
  let writeB := !hadCT && r.method == "GET"
  let w := if writeB then headerSet w "Content-Type" "text/html; charset=utf-8" else w
  let w := writeHeader w code
  if writeB then
    writeBody w ("<a href=\"" ++ url ++ "\">" ++ statusText code ++ "</a>.\n\n")
  else w

/-- HyperView.Redirect: htmx requests get the HX-Redirect 303 shape,
XMLHttpRequests get a 200 JSON redirect body, everything else a standard
302 via http.Redirect. -/
def HyperView.Redirect (s : HyperView) (w : HTTPWriter) (r : Request) (url : String) :
    HTTPWriter :=
  if IsHtmxRequest r then s.HxRedirect w url
  else if IsXMLHttpRequest r then
    let w := headerSet w "Content-Type" "application/json"
    let w := writeHeader w 200
    writeBody w (redirectJSONBody url)
  else httpRedirect w r url 302

/-- Filesystem-id key of the default mounted source. -/
def RootFSID : String := "__ROOT__"

/-- Name of the views directory. -/
def ViewsDir : String := "views"

/-- Name of the layouts directory. -/
def LayoutsDir : String := "layouts"

/-- Name of the system pages directory. -/
def SystemDir : String := "system"

/-- TemplateAdapter.viewsPath: the segments joined under the views dir. -/
def viewsPath (ps : List String) : String :=
  ViewsDir ++ "/" ++ String.intercalate "/" ps

/-- A compiled template, abstracted to the three operations the adapter
performs on it: cloning, parsing in a layout file by path, and executing
the layout definition against a data map into a buffer.  The template
expression engine is external to this library, so these are oracles fixed
per template. -/
structure Template where
  cloneRes : Except String Unit
  layoutRes : String → Except String Unit
  exec : String → List (String × JValue) → Except String String

/-- A template source file as the initialization walk sees it: its path
inside the filesystem and the outcome of cloning the shared base and
parsing the file. -/
structure ModelPageFile where
  path : String
  parse : Except String Template

/-- One mounted filesystem: its registry id, whether opening the views or
partial-template directories succeeds, and the files each walk visits in
order (fs.WalkDir order). -/
structure ModelFS where
  id : String
  hasViews : Bool
  viewFiles : List ModelPageFile
  hasPartialsDir : Bool
  partialFiles : List ModelPageFile

/-- The html/template adapter: configured extension, mounted filesystems,
and the compiled-template registry keyed by logical page path. -/
structure TemplateAdapter where
  extension : String
  fileSystems : List ModelFS
  templates : List (String × Template)

/-- The registry key of a page file: the path stripped of its extension,
prefixed by the filesystem id unless that id is the root id. -/
def pageNameOf (fsID path : String) : String :=
  let name := trimExt path
  if fsID == RootFSID then name else fsID ++ ":" ++ name

/-- Partial-template pass over one filesystem walk: abort on the first file
whose parse fails, skipping files with a foreign extension. -/
def loadPartialsList (ext : String) : List ModelPageFile → Except String Unit
  | [] => Except.ok ()
  | f :: rest =>
    if filepathExt f.path == ext then
      match f.parse with
      | Except.error e => Except.error e
      | Except.ok _ => loadPartialsList ext rest
    else loadPartialsList ext rest

/-- TemplateAdapter.loadPartials: walk the partial-template directory of
every mounted filesystem that has one, aborting on the first parse error.
The shared base definition set it builds is folded into each page file
parse oracle. -/
def loadPartialsAll (ext : String) : List ModelFS → Except String Unit
  | [] => Except.ok ()
  | fs :: rest =>
    if fs.hasPartialsDir then
      match loadPartialsList ext fs.partialFiles with
      | Except.error e => Except.error e
      | Except.ok _ => loadPartialsAll ext rest
    else loadPartialsAll ext rest

/-- Views walk over one filesystem: files with the configured extension are
parsed and inserted into the registry under their page name; the first
parse failure aborts, returning the registry as filled so far. -/
def walkViews (ext fsID : String) :
    List ModelPageFile → List (String × Template) →
    Option String × List (String × Template)
  | [], acc => (none, acc)
  | f :: rest, acc =>
    if filepathExt f.path == ext then
      match f.parse with
      | Except.error e => (some e, acc)
      | Except.ok t => walkViews ext fsID rest (setKey acc (pageNameOf fsID f.path) t)
    else walkViews ext fsID rest acc

/-- Views walk over every mounted filesystem that has a views directory.
Go iterates the filesystem map in unspecified order; the model fixes the
list order. -/
def walkAll (ext : String) :
    List ModelFS → List (String × Template) →
    Option String × List (String × Template)
  | [], acc => (none, acc)
  | fs :: rest, acc =>
    if fs.hasViews then
      match walkViews ext fs.id fs.viewFiles acc with
      | (some e, acc) => (some e, acc)
      | (none, acc) => walkAll ext rest acc
    else walkAll ext rest acc

/-- TemplateAdapter.Init: reset the registry to a fresh empty map, load the
partial templates, then walk the views of every filesystem; any failure
aborts with the underlying error, leaving the registry as filled so far. -/
def TemplateAdapterInit (a : TemplateAdapter) : Option String × TemplateAdapter :=
  let a := { a with templates := [] }
  match loadPartialsAll a.extension a.fileSystems with
  | Except.error e => (some ("error loading partials. " ++ e), a)
  | Except.ok _ =>
    match walkAll a.extension a.fileSystems [] with
    | (err, acc) => (err, { a with templates := acc })

/-- TemplateAdapter.handleError: a non-nil error becomes a plain-text 500
carrying the error text. -/
def taHandleError (w : HTTPWriter) (err : Option String) : HTTPWriter :=
  match err with
  | some e => httpError w e 500
  | none => w

/-- TemplateAdapter.getTemplate: look the page template up by the response
path (failing with the template-not-found error), clone it, and parse in
the requested layout from the root filesystem; the successful result is
the executable obtained by running the clone against the layout path. -/
def getTemplate (a : TemplateAdapter) (resp : Response) :
    Except String (List (String × JValue) → Except String String) :=
  match lookupKey a.templates resp.templatePath with
  | none => Except.error ("template not found: " ++ resp.templatePath)
  | some pageTmpl =>
    match pageTmpl.cloneRes with
    | Except.error e => Except.error ("error cloning template: " ++ e)
    | Except.ok _ =>
      let layoutPath := LayoutsDir ++ "/" ++ resp.templateLayout ++ a.extension
      match pageTmpl.layoutRes layoutPath with
      | Except.error e => Except.error ("error parsing layout: " ++ e)
      | Except.ok _ => Except.ok (pageTmpl.exec layoutPath)

/-- TemplateAdapter.execTemplate: execute the layout definition against the
view data into an in-memory buffer; on failure write a plain-text 500 (the
branch on the server-error path mirrors the source's recursion guard), and
only on success copy the custom headers, write the status code and flush
the buffer. -/
def execTemplate (w : HTTPWriter) (r : Request) (resp : Response)
    (tmpl : List (String × JValue) → Except String String) : HTTPWriter :=
  match tmpl ((resp.ViewData r).dataMap) with
  | Except.error err =>
    let msg := "error executing template: " ++ err
    if resp.templatePath == viewsPath [SystemDir, "server-error"] then
      httpError w msg 500
    else
      taHandleError w (some msg)
  | Except.ok out =>
    let w := resp.headers.foldl (fun w kv => headerSet w kv.1 kv.2) w
    let w := writeHeader w resp.status
    writeBody w out

/-- TemplateAdapter.Render: resolve the template and execute it; a
resolution failure goes through handleError. -/
def TemplateAdapterRender (a : TemplateAdapter) (w : HTTPWriter) (r : Request)
    (resp : Response) : HTTPWriter :=
  match getTemplate a resp with
  | Except.error err => taHandleError w (some err)
  | Except.ok tmpl => execTemplate w r resp tmpl

/-- TemplateAdapter.RenderSystemError: when the system 500 page is in the
registry, render it with the error folded into the page data; otherwise a
plain-text 500 with the error text.  The logged stack trace is modelled as
an empty LineErrors string. -/
def TemplateAdapterRenderSystemError (a : TemplateAdapter) (w : HTTPWriter)
    (r : Request) (err : String) (resp : Response) : HTTPWriter :=
  let path := viewsPath [SystemDir, "500"]
  match lookupKey a.templates path with
  | some _ =>
    TemplateAdapterRender a w r
      (((resp.Path path).Errors err [("LineErrors", "")]).StatusError)
  | none => httpError w err 500

/-- The behavior claim C2 ascribes to template execution failure, written
from the spec's words for comparison with the source-derived functions: a
failing execution of a template other than the system error page is
recovered by rendering the configured system error page (the behavior of
RenderSystemError). -/
def ExecFailureRendersSystemErrorPage : Prop :=
  ∀ (a : TemplateAdapter) (w : HTTPWriter) (r : Request) (resp : Response)
    (tmpl : List (String × JValue) → Except String String) (e : String),
    getTemplate a resp = Except.ok tmpl →
    tmpl ((resp.ViewData r).dataMap) = Except.error e →
    resp.templatePath ≠ viewsPath [SystemDir, "server-error"] →
    TemplateAdapterRender a w r resp =
      TemplateAdapterRenderSystemError a w r ("error executing template: " ++ e) resp

/-- The entries of a registry a failed reinitialization can contain: pairs
produced by a successful parse during the fresh walk, never carried over
from the previous registry. -/
def FreshEntry (a : TemplateAdapter) (p : String × Template) : Prop :=
  ∃ fs ∈ a.fileSystems, fs.hasViews = true ∧
    ∃ f ∈ fs.viewFiles, filepathExt f.path = a.extension ∧
      f.parse = Except.ok p.2 ∧ p.1 = pageNameOf fs.id f.path

/-- The error a failed initialization returns is the underlying parse
error of some matching source file, wrapped for the partial-template
pass. -/
def InitErrorSource (a : TemplateAdapter) (e : String) : Prop :=
  (∃ e0, e = "error loading partials. " ++ e0 ∧
    ∃ fs ∈ a.fileSystems, fs.hasPartialsDir = true ∧
      ∃ f ∈ fs.partialFiles, filepathExt f.path = a.extension ∧
        f.parse = Except.error e0) ∨
  (∃ fs ∈ a.fileSystems, fs.hasViews = true ∧
    ∃ f ∈ fs.viewFiles, filepathExt f.path = a.extension ∧
      f.parse = Except.error e)

/-- A template whose every execution fails; used as a concrete input. -/
def tmplFailing : Template :=
  ⟨Except.ok (), fun _ => Except.ok (), fun _ _ => Except.error "boom"⟩

/-- A template that renders a recognizable page; used as a concrete
input. -/
def tmplErrorPage : Template :=
  ⟨Except.ok (), fun _ => Except.ok (), fun _ _ => Except.ok "SYSTEM ERROR PAGE"⟩

/-- A request with no relevant headers. -/
def reqPlain : Request := ⟨"GET", []⟩

/-- A request flagged as an htmx request. -/
def reqHtmx : Request := ⟨"GET", [("HX-Request", "true")]⟩

/-- A request flagged as an XMLHttpRequest. -/
def reqXHR : Request := ⟨"GET", [("X-Requested-With", "XMLHttpRequest")]⟩

/-- A concrete adapter holding a failing page template and a working
system error page. -/
def adapterCE : TemplateAdapter :=
  ⟨".gtml", [], [("views/home", tmplFailing), ("views/system/500", tmplErrorPage)]⟩

/-- The response rendering the failing page. -/
def respCE : Response := ⟨"views/home", "base", 200, [], none⟩

/-- A mounted filesystem whose single view file fails to parse. -/
def fsCE : ModelFS :=
  ⟨"__ROOT__", true, [⟨"views/home.gtml", Except.error "bad"⟩], false, []⟩

/-- A template adapter with a populated registry about to be
reinitialized over the failing filesystem. -/
def adapterInitCE : TemplateAdapter :=
  ⟨".gtml", [fsCE], [("old", tmplErrorPage)]⟩

/-- A registry adapter that renders a recognizable html body. -/
def adHTML : HVAdapter := ⟨Except.ok (), fun w _ _ => writeBody w "HTML"⟩

/-- A registry adapter that renders a recognizable json body. -/
def adJSON : HVAdapter := ⟨Except.ok (), fun w _ _ => writeBody w "JSON"⟩

/-- A facade with the two default adapters registered. -/
def hvCE : HyperView := ⟨[("html", adHTML), ("json", adJSON)], "base", "base"⟩

lemma lookupKey_setKey_self {α : Type} (l : List (String × α)) (k : String) (v : α) :
    lookupKey (setKey l k v) k = some v := by
  induction l with
  | nil => simp [setKey, lookupKey]
  | cons p rest ih =>
    by_cases h : p.1 = k
    · simp [setKey, h, lookupKey]
    · simp [setKey, h, lookupKey, ih]

lemma lookupKey_setKey_ne {α : Type} (l : List (String × α)) (k k' : String) (v : α)
    (h : k' ≠ k) : lookupKey (setKey l k' v) k = lookupKey l k := by
  induction l with
  | nil => simp [setKey, lookupKey, h]
  | cons p rest ih =>
    by_cases hp : p.1 = k'
    · simp [setKey, hp, lookupKey, h, hp.symm ▸ h]
    · simp [setKey, hp, lookupKey, ih]

lemma mem_setKey {α : Type} (l : List (String × α)) (k : String) (v : α)
    (p : String × α) (hp : p ∈ setKey l k v) : p = (k, v) ∨ p ∈ l := by
  induction l with
  | nil => simpa [setKey] using hp
  | cons q rest ih =>
    by_cases hq : q.1 = k
    · simp [setKey, hq] at hp
      rcases hp with h | h
      · exact Or.inl (by simp [h])
      · exact Or.inr (List.mem_cons_of_mem _ h)
    · simp [setKey, hq] at hp
      rcases hp with h | h
      · exact Or.inr (by simp [h])
      · rcases ih h with h1 | h1
        · exact Or.inl h1
        · exact Or.inr (List.mem_cons_of_mem _ h1)

lemma foldl_headerSet (hs : List (String × String)) : ∀ w : HTTPWriter,
    (hs.foldl (fun w kv => headerSet w kv.1 kv.2) w).status = w.status ∧
    (hs.foldl (fun w kv => headerSet w kv.1 kv.2) w).body = w.body ∧
    (hs.foldl (fun w kv => headerSet w kv.1 kv.2) w).headers =
      hs.foldl (fun h kv => setKey h kv.1 kv.2) w.headers := by
  induction hs with
  | nil => intro w; exact ⟨rfl, rfl, rfl⟩
  | cons kv rest ih =>
    intro w
    simpa [headerSet] using ih (headerSet w kv.1 kv.2)

lemma writeHeader_status (w : HTTPWriter) (c : Nat) (h : w.status = none) :
    (writeHeader w c).status = some c := by
  simp [writeHeader, h]

lemma writeHeader_body (w : HTTPWriter) (c : Nat) :
    (writeHeader w c).body = w.body := by
  cases hs : w.status <;> simp [writeHeader, hs]

lemma writeBody_body (w : HTTPWriter) (s : String) :
    (writeBody w s).body = w.body ++ s := by
  cases hs : w.status <;> simp [writeBody, writeHeader, hs]

lemma writeBody_status (w : HTTPWriter) (s : String) (h : w.status = none) :
    (writeBody w s).status = some 200 := by
  simp [writeBody, writeHeader, h]

lemma writeBody_status_some (w : HTTPWriter) (s : String) (c : Nat)
    (h : w.status = some c) : (writeBody w s).status = some c := by
  simp [writeBody, writeHeader, h]

lemma httpError_status (w : HTTPWriter) (msg : String) (c : Nat)
    (h : w.status = none) : (httpError w msg c).status = some c := by
  simp [httpError, headerSet]
  exact writeBody_status_some _ _ _ (writeHeader_status ⟨_, w.status, w.body⟩ c h)

lemma httpError_body (w : HTTPWriter) (msg : String) (c : Nat) :
    (httpError w msg c).body = w.body ++ (msg ++ "\n") := by
  simp [httpError, headerSet, writeBody_body, writeHeader_body]

lemma splitAtLastDot_spec (l : List Char) :
    ∀ pre suf, splitAtLastDot l = some (pre, suf) →
      (∃ t, suf = '.' :: t) ∧ l = pre ++ suf := by
  induction l with
  | nil => intro pre suf h; simp [splitAtLastDot] at h
  | cons c cs ih =>
    intro pre suf h
    simp only [splitAtLastDot] at h
    cases hs : splitAtLastDot cs with
    | some pr =>
      rw [hs] at h
      obtain ⟨hd, htl⟩ := ih pr.1 pr.2 (by rw [hs])
      simp at h
      obtain ⟨h1, h2⟩ := h
      constructor
      · exact h2 ▸ hd
      · rw [← h1, ← h2]
        rw [htl]
        simp
    | none =>
      rw [hs] at h
      by_cases hc : c = '.'
      · simp [hc] at h
        obtain ⟨h1, h2⟩ := h
        constructor
        · exact ⟨cs, h2.symm⟩
        · rw [h1, ← h2, hc]
          simp
      · simp [hc] at h

lemma renderStripped_headers (resp : Response) :
    (renderStripped resp).headers = resp.headers := by
  unfold renderStripped
  cases lastDotSplit resp.templatePath with
  | none => rfl
  | some pr => rfl

lemma renderStripped_headerGet (resp : Response) (k : String) :
    (renderStripped resp).headerGet k = resp.headerGet k := by
  unfold Response.headerGet
  rw [renderStripped_headers]

lemma renderAs_empty_key (s : HyperView) (w : HTTPWriter) (r : Request)
    (resp : Response) :
    s.RenderAs w r "" resp = s.RenderAs w r "html" resp := rfl

lemma initData_error (pd : Option (List (String × JValue))) :
    lookupKey (initData pd) "Error" =
      some ((lookupKey (pd.getD []) "Error").getD (JValue.str "")) := by
  unfold initData
  cases he : lookupKey (pd.getD []) "Error" with
  | some v =>
    simp only [he, Option.isSome_some, if_true]
    cases he2 : lookupKey (pd.getD []) "Errors" with
    | some v2 => simp [he2, he]
    | none =>
      simp only [he2, Option.isSome_none, Bool.false_eq_true, if_false]
      rw [lookupKey_setKey_ne _ _ _ _ (by decide), he]
      rfl
  | none =>
    simp only [he, Option.isSome_none, Bool.false_eq_true, if_false]
    have h1 : lookupKey (setKey (pd.getD []) "Error" (JValue.str "")) "Error" =
        some (JValue.str "") := lookupKey_setKey_self _ _ _
    cases he2 : lookupKey (setKey (pd.getD []) "Error" (JValue.str "")) "Errors" with
    | some v2 => simp [he2, h1]
    | none =>
      simp only [he2, Option.isSome_none, Bool.false_eq_true, if_false]
      rw [lookupKey_setKey_ne _ _ _ _ (by decide), h1]
      rfl

lemma initData_errors (pd : Option (List (String × JValue))) :
    lookupKey (initData pd) "Errors" =
      some ((lookupKey (pd.getD []) "Errors").getD (JValue.smap [])) := by
  unfold initData
  have hpres : ∀ d : List (String × JValue),
      lookupKey (if (lookupKey d "Error").isSome then d
                 else setKey d "Error" (JValue.str "")) "Errors" =
        lookupKey d "Errors" := by
    intro d
    by_cases he : (lookupKey d "Error").isSome
    · simp [he]
    · simp only [he, if_false]
      exact lookupKey_setKey_ne _ _ _ _ (by decide)
  cases he2 : lookupKey (pd.getD []) "Errors" with
  | some v2 =>
    have := hpres (pd.getD [])
    rw [he2] at this
    simp [this, he2]
  | none =>
    have := hpres (pd.getD [])
    rw [he2] at this
    simp only [this, Option.isSome_none, Bool.false_eq_true, if_false]
    rw [lookupKey_setKey_self]
    rfl

lemma walkViews_mem (ext fsID : String) (files : List ModelPageFile) :
    ∀ (acc res : List (String × Template)) (err : Option String),
      walkViews ext fsID files acc = (err, res) →
      ∀ p ∈ res, p ∈ acc ∨
        ∃ f ∈ files, filepathExt f.path = ext ∧
          f.parse = Except.ok p.2 ∧ p.1 = pageNameOf fsID f.path := by
  induction files with
  | nil =>
    intro acc res err h p hp
    simp [walkViews] at h
    exact Or.inl (h.2 ▸ hp)
  | cons f rest ih =>
    intro acc res err h p hp
    simp only [walkViews] at h
    by_cases hext : filepathExt f.path == ext
    · rw [if_pos hext] at h
      cases hparse : f.parse with
      | error e =>
        rw [hparse] at h
        simp at h
        exact Or.inl (h.2.symm ▸ hp)
      | ok t =>
        rw [hparse] at h
        rcases ih _ _ _ h p hp with hacc | ⟨g, hg, hgs⟩
        · rcases mem_setKey _ _ _ _ hacc with heq | hin
          · refine Or.inr ⟨f, List.mem_cons_self _ _, eq_of_beq hext, ?_, ?_⟩
            · rw [hparse, heq]
            · rw [heq]
          · exact Or.inl hin
        · exact Or.inr ⟨g, List.mem_cons_of_mem _ hg, hgs⟩
    · rw [if_neg hext] at h
      rcases ih _ _ _ h p hp with hacc | ⟨g, hg, hgs⟩
      · exact Or.inl hacc
      · exact Or.inr ⟨g, List.mem_cons_of_mem _ hg, hgs⟩

lemma walkViews_err (ext fsID : String) (files : List ModelPageFile) :
    ∀ (acc res : List (String × Template)) (e : String),
      walkViews ext fsID files acc = (some e, res) →
      ∃ f ∈ files, filepathExt f.path = ext ∧ f.parse = Except.error e := by
  induction files with
  | nil =>
    intro acc res e h
    simp [walkViews] at h
  | cons f rest ih =>
    intro acc res e h
    simp only [walkViews] at h
    by_cases hext : filepathExt f.path == ext
    · rw [if_pos hext] at h
      cases hparse : f.parse with
      | error e0 =>
        rw [hparse] at h
        simp at h
        exact ⟨f, List.mem_cons_self _ _, eq_of_beq hext, by rw [hparse, h.1]⟩
      | ok t =>
        rw [hparse] at h
        obtain ⟨g, hg, hgs⟩ := ih _ _ _ h
        exact ⟨g, List.mem_cons_of_mem _ hg, hgs⟩
    · rw [if_neg hext] at h
      obtain ⟨g, hg, hgs⟩ := ih _ _ _ h
      exact ⟨g, List.mem_cons_of_mem _ hg, hgs⟩

lemma walkAll_mem (ext : String) (fss : List ModelFS) :
    ∀ (acc res : List (String × Template)) (err : Option String),
      walkAll ext fss acc = (err, res) →
      ∀ p ∈ res, p ∈ acc ∨
        ∃ fs ∈ fss, fs.hasViews = true ∧
          ∃ f ∈ fs.viewFiles, filepathExt f.path = ext ∧
            f.parse = Except.ok p.2 ∧ p.1 = pageNameOf fs.id f.path := by
  induction fss with
  | nil =>
    intro acc res err h p hp
    simp [walkAll] at h
    exact Or.inl (h.2 ▸ hp)
  | cons fs rest ih =>
    intro acc res err h p hp
    simp only [walkAll] at h
    by_cases hv : fs.hasViews
    · rw [if_pos hv] at h
      cases hw : walkViews ext fs.id fs.viewFiles acc with
      | mk werr wacc =>
        rw [hw] at h
        cases werr with
        | some e =>
          simp at h
          have hres : p ∈ wacc := h.2 ▸ hp
          rcases walkViews_mem _ _ _ _ _ _ hw p hres with hacc | ⟨f, hf, hfs⟩
          · exact Or.inl hacc
          · exact Or.inr ⟨fs, List.mem_cons_self _ _, hv, f, hf, hfs⟩
        | none =>
          rcases ih _ _ _ h p hp with hacc | ⟨fs2, hfs2, hrest⟩
          · rcases walkViews_mem _ _ _ _ _ _ hw p hacc with hacc2 | ⟨f, hf, hfs⟩
            · exact Or.inl hacc2
            · exact Or.inr ⟨fs, List.mem_cons_self _ _, hv, f, hf, hfs⟩
          · exact Or.inr ⟨fs2, List.mem_cons_of_mem _ hfs2, hrest⟩
    · rw [if_neg hv] at h
      rcases ih _ _ _ h p hp with hacc | ⟨fs2, hfs2, hrest⟩
      · exact Or.inl hacc
      · exact Or.inr ⟨fs2, List.mem_cons_of_mem _ hfs2, hrest⟩

lemma walkAll_err (ext : String) (fss : List ModelFS) :
    ∀ (acc res : List (String × Template)) (e : String),
      walkAll ext fss acc = (some e, res) →
      ∃ fs ∈ fss, fs.hasViews = true ∧
        ∃ f ∈ fs.viewFiles, filepathExt f.path = ext ∧ f.parse = Except.error e := by
  induction fss with
  | nil =>
    intro acc res e h
    simp [walkAll] at h
  | cons fs rest ih =>
    intro acc res e h
    simp only [walkAll] at h
    by_cases hv : fs.hasViews
    · rw [if_pos hv] at h
      cases hw : walkViews ext fs.id fs.viewFiles acc with
      | mk werr wacc =>
        rw [hw] at h
        cases werr with
        | some e0 =>
          simp at h
          obtain ⟨f, hf, hfs⟩ := walkViews_err _ _ _ _ _ _ (h.1 ▸ hw)
          exact ⟨fs, List.mem_cons_self _ _, hv, f, hf, hfs⟩
        | none =>
          obtain ⟨fs2, hfs2, hrest⟩ := ih _ _ _ h
          exact ⟨fs2, List.mem_cons_of_mem _ hfs2, hrest⟩
    · rw [if_neg hv] at h
      obtain ⟨fs2, hfs2, hrest⟩ := ih _ _ _ h
      exact ⟨fs2, List.mem_cons_of_mem _ hfs2, hrest⟩

lemma loadPartialsList_err (ext : String) (files : List ModelPageFile) :
    ∀ e : String, loadPartialsList ext files = Except.error e →
      ∃ f ∈ files, filepathExt f.path = ext ∧ f.parse = Except.error e := by
  induction files with
  | nil =>
    intro e h
    simp [loadPartialsList] at h
  | cons f rest ih =>
    intro e h
    simp only [loadPartialsList] at h
    by_cases hext : filepathExt f.path == ext
    · rw [if_pos hext] at h
      cases hparse : f.parse with
      | error e0 =>
        rw [hparse] at h
        simp at h
        exact ⟨f, List.mem_cons_self _ _, eq_of_beq hext, by rw [hparse, h]⟩
      | ok t =>
        rw [hparse] at h
        obtain ⟨g, hg, hgs⟩ := ih _ h
        exact ⟨g, List.mem_cons_of_mem _ hg, hgs⟩
    · rw [if_neg hext] at h
      obtain ⟨g, hg, hgs⟩ := ih _ h
      exact ⟨g, List.mem_cons_of_mem _ hg, hgs⟩

lemma loadPartialsAll_err (ext : String) (fss : List ModelFS) :
    ∀ e : String, loadPartialsAll ext fss = Except.error e →
      ∃ fs ∈ fss, fs.hasPartialsDir = true ∧
        ∃ f ∈ fs.partialFiles, filepathExt f.path = ext ∧ f.parse = Except.error e := by
  induction fss with
  | nil =>
    intro e h
    simp [loadPartialsAll] at h
  | cons fs rest ih =>
    intro e h
    simp only [loadPartialsAll] at h
    by_cases hp : fs.hasPartialsDir
    · rw [if_pos hp] at h
      cases hl : loadPartialsList ext fs.partialFiles with
      | error e0 =>
        rw [hl] at h
        simp at h
        obtain ⟨f, hf, hfs⟩ := loadPartialsList_err _ _ _ (h ▸ hl)
        exact ⟨fs, List.mem_cons_self _ _, hp, f, hf, hfs⟩
      | ok u =>
        rw [hl] at h
        obtain ⟨fs2, hfs2, hrest⟩ := ih _ h
        exact ⟨fs2, List.mem_cons_of_mem _ hfs2, hrest⟩
    · rw [if_neg hp] at h
      obtain ⟨fs2, hfs2, hrest⟩ := ih _ h
      exact ⟨fs2, List.mem_cons_of_mem _ hfs2, hrest⟩

lemma testHXHeaders_rows :
    IsHtmxRequest ⟨"GET", [("HX-Request", "true")]⟩ = true ∧
    IsBoostedRequest ⟨"GET", [("HX-Boosted", "true")]⟩ = true ∧
    IsAnyHtmxRequest ⟨"GET", [("HX-Request", "true"), ("HX-Boosted", "true")]⟩ = true ∧
    IsHtmxRequest ⟨"GET", [("HX-Request", "true"), ("HX-Boosted", "true")]⟩ = false ∧
    IsHtmxRequest ⟨"GET", []⟩ = false ∧
    IsBoostedRequest ⟨"GET", []⟩ = false ∧
    IsAnyHtmxRequest ⟨"GET", []⟩ = false := by
  decide

/-- C8: IsHtmxRequest holds exactly when the HX-Request header is set and
the HX-Boosted header is not (AND-NOT), and IsAnyHtmxRequest holds exactly
when at least one of the two is set (OR). -/
theorem C8_htmx_predicates (r : Request) :
    (IsHtmxRequest r = true ↔
      (r.headerGet "HX-Request" ≠ "" ∧ ¬ r.headerGet "HX-Boosted" ≠ "")) ∧
    (IsAnyHtmxRequest r = true ↔
      (r.headerGet "HX-Request" ≠ "" ∨ r.headerGet "HX-Boosted" ≠ "")) := by
  constructor
  · simp [IsHtmxRequest]
  · simp [IsAnyHtmxRequest]

/-- C9: RegisterAdapter stores the adapter under the name and returns the
Init result of the stored entry; even when Init fails, a subsequent
Adapter lookup still returns the adapter — registration is not rolled
back. -/
theorem C9_register_not_rolled_back (s : HyperView) (name : String) (ad : HVAdapter) :
    (s.RegisterAdapter name ad).2 = ad.initRes ∧
    (s.RegisterAdapter name ad).1.Adapter name = some ad ∧
    (∀ e, ad.initRes = Except.error e →
      (s.RegisterAdapter name ad).2 = Except.error e ∧
      (s.RegisterAdapter name ad).1.Adapter name = some ad) := by
  have hl : lookupKey (setKey s.adapters name ad) name = some ad :=
    lookupKey_setKey_self _ _ _
  refine ⟨?_, ?_, ?_⟩
  · simp [HyperView.RegisterAdapter, hl]
  · simp [HyperView.RegisterAdapter, HyperView.Adapter, hl]
  · intro e he
    refine ⟨?_, ?_⟩
    · simp [HyperView.RegisterAdapter, hl, he]
    · simp [HyperView.RegisterAdapter, HyperView.Adapter, hl]

theorem C9_register_not_rolled_back_witness :
    (hvCE.RegisterAdapter "pdf" ⟨Except.error "init failed", fun w _ _ => w⟩).2 =
      Except.error "init failed" ∧
    (hvCE.RegisterAdapter "pdf" ⟨Except.error "init failed", fun w _ _ => w⟩).1.Adapter "pdf" =
      some ⟨Except.error "init failed", fun w _ _ => w⟩ :=
  (C9_register_not_rolled_back hvCE "pdf" ⟨Except.error "init failed", fun w _ _ => w⟩).2.2
    "init failed" rfl

/-- C10: for every view-data object, Data() yields a map that binds View to
the object itself, always contains the Error and Errors keys (defaulted to
an empty string and an empty map when the caller did not supply them), and
preserves caller-supplied Error and Errors values. -/
theorem C10_view_data_invariant (v : Data) :
    lookupKey v.dataMap "View" = some JValue.view ∧
    (lookupKey v.dataMap "Error").isSome = true ∧
    (lookupKey v.dataMap "Errors").isSome = true ∧
    (lookupKey (v.pageData.getD []) "Error" = none →
      lookupKey v.dataMap "Error" = some (JValue.str "")) ∧
    (lookupKey (v.pageData.getD []) "Errors" = none →
      lookupKey v.dataMap "Errors" = some (JValue.smap [])) ∧
    (∀ jv, lookupKey (v.pageData.getD []) "Error" = some jv →
      lookupKey v.dataMap "Error" = some jv) ∧
    (∀ jv, lookupKey (v.pageData.getD []) "Errors" = some jv →
      lookupKey v.dataMap "Errors" = some jv) := by
  have herr : lookupKey v.dataMap "Error" =
      some ((lookupKey (v.pageData.getD []) "Error").getD (JValue.str "")) := by
    unfold Data.dataMap
    rw [lookupKey_setKey_ne _ _ _ _ (by decide)]
    exact initData_error _
  have herrs : lookupKey v.dataMap "Errors" =
      some ((lookupKey (v.pageData.getD []) "Errors").getD (JValue.smap [])) := by
    unfold Data.dataMap
    rw [lookupKey_setKey_ne _ _ _ _ (by decide)]
    exact initData_errors _
  refine ⟨?_, ?_, ?_, ?_, ?_, ?_, ?_⟩
  · exact lookupKey_setKey_self _ _ _
  · rw [herr]; rfl
  · rw [herrs]; rfl
  · intro h; rw [herr, h]; rfl
  · intro h; rw [herrs, h]; rfl
  · intro jv h; rw [herr, h]; rfl
  · intro jv h; rw [herrs, h]; rfl

theorem C10_view_data_invariant_witness :
    lookupKey (Data.dataMap ⟨"", none⟩) "View" = some JValue.view ∧
    lookupKey (Data.dataMap ⟨"", none⟩) "Error" = some (JValue.str "") ∧
    lookupKey (Data.dataMap ⟨"", none⟩) "Errors" = some (JValue.smap []) ∧
    lookupKey (Data.dataMap ⟨"", some [("Error", JValue.str "kept")]⟩) "Error" =
      some (JValue.str "kept") :=
  ⟨(C10_view_data_invariant ⟨"", none⟩).1,
   (C10_view_data_invariant ⟨"", none⟩).2.2.2.1 rfl,
   (C10_view_data_invariant ⟨"", none⟩).2.2.2.2.1 rfl,
   (C10_view_data_invariant ⟨"", some [("Error", JValue.str "kept")]⟩).2.2.2.2.2.1
     (JValue.str "kept") rfl⟩

lemma execTemplate_error_eq (w : HTTPWriter) (r : Request) (resp : Response)
    (tmpl : List (String × JValue) → Except String String) (e : String)
    (h : tmpl ((resp.ViewData r).dataMap) = Except.error e) :
    execTemplate w r resp tmpl =
      httpError w ("error executing template: " ++ e) 500 := by
  unfold execTemplate
  rw [h]
  by_cases hp : resp.templatePath == viewsPath [SystemDir, "server-error"]
  · simp [hp]
  · simp [hp, taHandleError]

/-- C2 counterexample: on a concrete adapter whose registry holds a working
system error page (views/system/500) and a page template whose execution
fails, the render does not produce what RenderSystemError would produce —
the failure path writes a plain-text 500 and never renders the system error
page, so the claimed recovery behavior is false. -/
theorem C2_counterexample : ¬ ExecFailureRendersSystemErrorPage := by
  intro h
  have heq := h adapterCE HTTPWriter.empty reqPlain respCE
    (tmplFailing.exec
      (LayoutsDir ++ "/" ++ respCE.templateLayout ++ adapterCE.extension))
    "boom" rfl rfl (by decide)
  exact absurd (congrArg HTTPWriter.body heq) (by decide)

/-- C2 amended: for every render whose template execution fails, the
adapter writes a raw plain-text 500 carrying the execution error — whether
or not the failing template is the system error page path — and never
renders the configured system error page; the recursion-guard branch of
the source exists but both of its arms produce this same plain-text 500. -/
theorem C2_exec_failure_plain_500 (w : HTTPWriter) (r : Request)
    (resp : Response) (tmpl : List (String × JValue) → Except String String)
    (e : String) (h : tmpl ((resp.ViewData r).dataMap) = Except.error e) :
    execTemplate w r resp tmpl =
      httpError w ("error executing template: " ++ e) 500 :=
  execTemplate_error_eq w r resp tmpl e h

theorem C2_exec_failure_plain_500_witness :
    execTemplate HTTPWriter.empty reqPlain respCE
        (fun _ => Except.error "boom") =
      httpError HTTPWriter.empty ("error executing template: " ++ "boom") 500 :=
  C2_exec_failure_plain_500 HTTPWriter.empty reqPlain respCE
    (fun _ => Except.error "boom") "boom" rfl

/-- C3: template output is buffered; when execution fails the writer gains
only the plain-text 500 diagnostic (no byte of the page, no success
status), and only when execution succeeds are the custom headers, the
status code and the buffered body written, in that order. -/
theorem C3_buffered_write_atomicity (w : HTTPWriter) (r : Request)
    (resp : Response) (tmpl : List (String × JValue) → Except String String)
    (hw : w.status = none) :
    (∀ e, tmpl ((resp.ViewData r).dataMap) = Except.error e →
      (execTemplate w r resp tmpl).status = some 500 ∧
      (execTemplate w r resp tmpl).status ≠ some 200 ∧
      (execTemplate w r resp tmpl).body =
        w.body ++ ("error executing template: " ++ e ++ "\n")) ∧
    (∀ out, tmpl ((resp.ViewData r).dataMap) = Except.ok out →
      (execTemplate w r resp tmpl).status = some resp.status ∧
      (execTemplate w r resp tmpl).body = w.body ++ out ∧
      (execTemplate w r resp tmpl).headers =
        resp.headers.foldl (fun h kv => setKey h kv.1 kv.2) w.headers) := by
  constructor
  · intro e he
    rw [execTemplate_error_eq w r resp tmpl e he]
    refine ⟨httpError_status _ _ _ hw, ?_, ?_⟩
    · rw [httpError_status _ _ _ hw]
      simp
    · rw [httpError_body]
  · intro out hout
    unfold execTemplate
    rw [hout]
    obtain ⟨hst, hbd, hhd⟩ := foldl_headerSet resp.headers w
    have hst2 : (writeHeader
        (resp.headers.foldl (fun w kv => headerSet w kv.1 kv.2) w)
        resp.status).status = some resp.status :=
      writeHeader_status _ _ (hst.trans hw)
    refine ⟨?_, ?_, ?_⟩
    · simp only [writeBody_status_some _ _ _ hst2]
    · rw [writeBody_body, writeHeader_body, hbd]
    · show (writeBody (writeHeader _ resp.status) out).headers = _
      have : ∀ (u : HTTPWriter) (s : String), (writeBody u s).headers = u.headers := by
        intro u s
        cases hu : u.status <;> simp [writeBody, writeHeader, hu]
      rw [this]
      have : ∀ (u : HTTPWriter) (c : Nat), (writeHeader u c).headers = u.headers := by
        intro u c
        cases hu : u.status <;> simp [writeHeader, hu]
      rw [this]
      exact hhd

theorem C3_buffered_write_atomicity_witness :
    (execTemplate HTTPWriter.empty reqPlain respCE
      (fun _ => Except.error "boom")).status = some 500 ∧
    (execTemplate HTTPWriter.empty reqPlain respCE
      (fun _ => Except.ok "PAGE")).body = "" ++ "PAGE" :=
  ⟨((C3_buffered_write_atomicity HTTPWriter.empty reqPlain respCE
      (fun _ => Except.error "boom") rfl).1 "boom" rfl).1,
   ((C3_buffered_write_atomicity HTTPWriter.empty reqPlain respCE
      (fun _ => Except.ok "PAGE") rfl).2 "PAGE" rfl).2.1⟩

/-- C5: when the response's template path is not a key of the compiled
template registry, Render produces exactly the plain-text 500 whose body
carries the template-not-found diagnostic and the missing path; in
particular the client never receives a 200. -/
theorem C5_template_not_found (a : TemplateAdapter) (w : HTTPWriter)
    (r : Request) (resp : Response)
    (h : lookupKey a.templates resp.templatePath = none)
    (hw : w.status = none) :
    TemplateAdapterRender a w r resp =
      httpError w ("template not found: " ++ resp.templatePath) 500 ∧
    (TemplateAdapterRender a w r resp).status = some 500 ∧
    (TemplateAdapterRender a w r resp).status ≠ some 200 ∧
    ∃ suf, (TemplateAdapterRender a w r resp).body =
      w.body ++ ("template not found" ++ suf) := by
  have hmain : TemplateAdapterRender a w r resp =
      httpError w ("template not found: " ++ resp.templatePath) 500 := by
    unfold TemplateAdapterRender getTemplate
    rw [h]
    rfl
  refine ⟨hmain, ?_, ?_, ?_⟩
  · rw [hmain]; exact httpError_status _ _ _ hw
  · rw [hmain, httpError_status _ _ _ hw]; simp
  · refine ⟨": " ++ resp.templatePath ++ "\n", ?_⟩
    rw [hmain, httpError_body]
    rfl

theorem C5_template_not_found_witness :
    TemplateAdapterRender ⟨".gtml", [], []⟩ HTTPWriter.empty reqPlain respCE =
      httpError HTTPWriter.empty ("template not found: " ++ "views/home") 500 ∧
    (TemplateAdapterRender ⟨".gtml", [], []⟩ HTTPWriter.empty reqPlain
      respCE).status ≠ some 200 :=
  ⟨(C5_template_not_found ⟨".gtml", [], []⟩ HTTPWriter.empty reqPlain respCE
      rfl rfl).1,
   (C5_template_not_found ⟨".gtml", [], []⟩ HTTPWriter.empty reqPlain respCE
      rfl rfl).2.2.1⟩

lemma JSONWithHeaders_status (w : HTTPWriter) (status : Nat) (e : Envelope)
    (hs : List (String × String)) (hw : w.status = none) :
    (JSONWithHeaders w status e hs).status = some status := by
  unfold JSONWithHeaders
  obtain ⟨hst, hbd, hhd⟩ := foldl_headerSet hs w
  have h1 : (headerSet (hs.foldl (fun w kv => headerSet w kv.1 kv.2) w)
      "Content-Type" "application/json; charset=UTF-8").status = none := by
    show (hs.foldl (fun w kv => headerSet w kv.1 kv.2) w).status = none
    exact hst.trans hw
  exact writeBody_status_some _ _ _ (writeHeader_status _ _ h1)

lemma JSONWithHeaders_body (w : HTTPWriter) (status : Nat) (e : Envelope)
    (hs : List (String × String)) :
    (JSONWithHeaders w status e hs).body = w.body ++ (envelopeMarshal e ++ "\n") := by
  unfold JSONWithHeaders
  obtain ⟨hst, hbd, hhd⟩ := foldl_headerSet hs w
  rw [writeBody_body, writeHeader_body]
  exact congrArg (fun b => b ++ (envelopeMarshal e ++ "\n")) hbd

/-- C4: the JSON adapter defaults a zero status to 200 with the success
envelope; a status above 299 routes through the fail envelope carrying the
page data as payload, with the status echoed both in the envelope's code
field and as the HTTP status; a status between 1 and 299 routes through
the success envelope with that status. -/
theorem C4_json_status_routing (w : HTTPWriter) (r : Request) (resp : Response)
    (hw : w.status = none) :
    (resp.status = 0 →
      JSONAdapterRender w r resp =
        JSONWithHeaders w 200
          (JSONSuccessEnv (some ((resp.ViewData r).dataMap)) 200) resp.headers ∧
      (JSONAdapterRender w r resp).status = some 200 ∧
      (JSONAdapterRender w r resp).body =
        w.body ++ (envelopeMarshal
          (JSONSuccessEnv (some ((resp.ViewData r).dataMap)) 200) ++ "\n")) ∧
    (299 < resp.status →
      JSONAdapterRender w r resp =
        JSONWithHeaders w resp.status
          (JSONFailureEnv (some ((resp.ViewData r).dataMap)) "Failure" resp.status)
          resp.headers ∧
      (JSONFailureEnv (some ((resp.ViewData r).dataMap)) "Failure" resp.status).status
        = "fail" ∧
      (JSONFailureEnv (some ((resp.ViewData r).dataMap)) "Failure" resp.status).code
        = resp.status ∧
      (JSONFailureEnv (some ((resp.ViewData r).dataMap)) "Failure" resp.status).data
        = some ((resp.ViewData r).dataMap) ∧
      (JSONAdapterRender w r resp).status = some resp.status) ∧
    (1 ≤ resp.status → resp.status ≤ 299 →
      JSONAdapterRender w r resp =
        JSONWithHeaders w resp.status
          (JSONSuccessEnv (some ((resp.ViewData r).dataMap)) resp.status)
          resp.headers ∧
      (JSONSuccessEnv (some ((resp.ViewData r).dataMap)) resp.status).status
        = "success" ∧
      (JSONSuccessEnv (some ((resp.ViewData r).dataMap)) resp.status).code
        = resp.status ∧
      (JSONAdapterRender w r resp).status = some resp.status) := by
  refine ⟨?_, ?_, ?_⟩
  · intro h0
    have hmain : JSONAdapterRender w r resp =
        JSONWithHeaders w 200
          (JSONSuccessEnv (some ((resp.ViewData r).dataMap)) 200) resp.headers := by
      unfold JSONAdapterRender
      rw [if_pos h0]
      have : ¬ 299 < (resp.Status 200).status := by
        simp [Response.Status]
      rw [if_neg this]
      rfl
    exact ⟨hmain, by rw [hmain]; exact JSONWithHeaders_status _ _ _ _ hw,
      by rw [hmain]; exact JSONWithHeaders_body _ _ _ _⟩
  · intro hgt
    have hne : ¬ resp.status = 0 := by omega
    have hmain : JSONAdapterRender w r resp =
        JSONWithHeaders w resp.status
          (JSONFailureEnv (some ((resp.ViewData r).dataMap)) "Failure" resp.status)
          resp.headers := by
      unfold JSONAdapterRender
      rw [if_neg hne, if_pos hgt]
      rfl
    exact ⟨hmain, rfl, rfl, rfl,
      by rw [hmain]; exact JSONWithHeaders_status _ _ _ _ hw⟩
  · intro h1 h299
    have hne : ¬ resp.status = 0 := by omega
    have hle : ¬ 299 < resp.status := by omega
    have hmain : JSONAdapterRender w r resp =
        JSONWithHeaders w resp.status
          (JSONSuccessEnv (some ((resp.ViewData r).dataMap)) resp.status)
          resp.headers := by
      unfold JSONAdapterRender
      rw [if_neg hne, if_neg hle]
      rfl
    exact ⟨hmain, rfl, rfl,
      by rw [hmain]; exact JSONWithHeaders_status _ _ _ _ hw⟩

theorem C4_json_status_routing_witness :
    (JSONAdapterRender HTTPWriter.empty reqPlain NewResponse).status = some 200 ∧
    (JSONAdapterRender HTTPWriter.empty reqPlain (NewResponse.Status 404)).status
      = some 404 ∧
    (JSONFailureEnv (some (((NewResponse.Status 404).ViewData reqPlain).dataMap))
      "Failure" 404).code = 404 ∧
    (JSONAdapterRender HTTPWriter.empty reqPlain (NewResponse.Status 201)).status
      = some 201 :=
  ⟨((C4_json_status_routing HTTPWriter.empty reqPlain NewResponse rfl).1 rfl).2.1,
   ((C4_json_status_routing HTTPWriter.empty reqPlain (NewResponse.Status 404) rfl).2.1
      (by decide)).2.2.2.2,
   ((C4_json_status_routing HTTPWriter.empty reqPlain (NewResponse.Status 404) rfl).2.1
      (by decide)).2.2.1,
   ((C4_json_status_routing HTTPWriter.empty reqPlain (NewResponse.Status 201) rfl).2.2
      (by decide) (by decide)).2.2.2⟩

/-- C6: Redirect emits exactly one of three shapes — for an htmx
(non-boosted) request a 303 with the HX-Redirect header set to the target
and the literal redirecting body; for an XMLHttpRequest a 200 JSON body
carrying status redirect, the redirecting message, and the url; and
otherwise a standard 302 with a Location header. -/
theorem C6_redirect_branching (s : HyperView) (r : Request) (url : String) :
    (IsHtmxRequest r = true →
      s.Redirect HTTPWriter.empty r url =
        ⟨[("HX-Redirect", url)], some 303, "redirecting..."⟩) ∧
    (IsHtmxRequest r = false → IsXMLHttpRequest r = true →
      s.Redirect HTTPWriter.empty r url =
        ⟨[("Content-Type", "application/json")], some 200, redirectJSONBody url⟩ ∧
      redirectJSONBody url =
        "\x7b\"message\":\"redirecting...\",\"status\":\"redirect\",\"url\":\""
          ++ url ++ "\"\x7d") ∧
    (IsHtmxRequest r = false → IsXMLHttpRequest r = false →
      (s.Redirect HTTPWriter.empty r url).status = some 302 ∧
      lookupKey (s.Redirect HTTPWriter.empty r url).headers "Location" = some url) := by
  refine ⟨?_, ?_, ?_⟩
  · intro h1
    simp only [HyperView.Redirect, h1, if_true]
    rfl
  · intro h1 h2
    simp only [HyperView.Redirect, h1, h2, Bool.false_eq_true, if_false, if_true]
    constructor
    · rfl
    · have hb : redirectJSONBody url =
          "\x7b" ++ (("\"message\":\"redirecting...\"" ++ (","
            ++ ("\"status\":\"redirect\"" ++ (","
            ++ ("\"url\":" ++ ("\"" ++ (url ++ "\""))))))) ++ "\x7d") := rfl
      rw [hb]
      apply String.ext
      simp only [String.data_append, List.append_assoc]
      rfl
  · intro h1 h2
    simp only [HyperView.Redirect, h1, h2, Bool.false_eq_true, if_false]
    by_cases hm : r.method == "GET"
    · exact ⟨by simp only [httpRedirect, hm]; rfl,
        by simp only [httpRedirect, hm]; rfl⟩
    · have hm2 : (r.method == "GET") = false := by
        simpa using hm
      exact ⟨by simp only [httpRedirect, hm2]; rfl,
        by simp only [httpRedirect, hm2]; rfl⟩

theorem C6_redirect_branching_witness :
    hvCE.Redirect HTTPWriter.empty reqHtmx "https://example.com" =
      ⟨[("HX-Redirect", "https://example.com")], some 303, "redirecting..."⟩ ∧
    hvCE.Redirect HTTPWriter.empty reqXHR "https://example.com" =
      ⟨[("Content-Type", "application/json")], some 200,
        redirectJSONBody "https://example.com"⟩ ∧
    (hvCE.Redirect HTTPWriter.empty reqPlain "https://example.com").status
      = some 302 ∧
    lookupKey (hvCE.Redirect HTTPWriter.empty reqPlain
      "https://example.com").headers "Location" = some "https://example.com" :=
  ⟨(C6_redirect_branching hvCE reqHtmx "https://example.com").1 rfl,
   ((C6_redirect_branching hvCE reqXHR "https://example.com").2.1 rfl rfl).1,
   ((C6_redirect_branching hvCE reqPlain "https://example.com").2.2 rfl rfl).1,
   ((C6_redirect_branching hvCE reqPlain "https://example.com").2.2 rfl rfl).2⟩

lemma TemplateAdapterInit_eq (a : TemplateAdapter) :
    TemplateAdapterInit a =
      match loadPartialsAll a.extension a.fileSystems with
      | Except.error e =>
        (some ("error loading partials. " ++ e), ⟨a.extension, a.fileSystems, []⟩)
      | Except.ok _ =>
        match walkAll a.extension a.fileSystems [] with
        | (err, acc) => (err, ⟨a.extension, a.fileSystems, acc⟩) := rfl

/-- C7: a parse failure makes Init abort, returning the underlying parse
error of some source file; the registry was reset to a fresh empty map
before the walk, so the outcome is the same whatever the registry held
before, and the registry Init leaves behind holds only entries parsed
during the fresh (aborted) walk — reinitializing in place on error does
not restore the previous registry. -/
theorem C7_init_not_atomic (a : TemplateAdapter) (e : String) (a' : TemplateAdapter)
    (h : TemplateAdapterInit a = (some e, a')) :
    (∀ t0, TemplateAdapterInit { a with templates := t0 } = (some e, a')) ∧
    InitErrorSource a e ∧
    (∀ p ∈ a'.templates, FreshEntry a p) := by
  have hsame : ∀ t0, TemplateAdapterInit { a with templates := t0 } =
      TemplateAdapterInit a := fun t0 => rfl
  refine ⟨fun t0 => (hsame t0).trans h, ?_, ?_⟩
  · rw [TemplateAdapterInit_eq] at h
    cases hl : loadPartialsAll a.extension a.fileSystems with
    | error e0 =>
      rw [hl] at h
      simp at h
      obtain ⟨f, hf, hfs⟩ := loadPartialsAll_err _ _ _ hl
      exact Or.inl ⟨e0, h.1.symm, f, hf, hfs⟩
    | ok u =>
      rw [hl] at h
      cases hw : walkAll a.extension a.fileSystems [] with
      | mk err acc =>
        rw [hw] at h
        simp at h
        obtain ⟨fs, hfs, hrest⟩ := walkAll_err _ _ _ _ _ (h.1 ▸ hw)
        exact Or.inr ⟨fs, hfs, hrest⟩
  · intro p hp
    rw [TemplateAdapterInit_eq] at h
    cases hl : loadPartialsAll a.extension a.fileSystems with
    | error e0 =>
      rw [hl] at h
      simp at h
      rw [← h.2] at hp
      simp at hp
    | ok u =>
      rw [hl] at h
      cases hw : walkAll a.extension a.fileSystems [] with
      | mk err acc =>
        rw [hw] at h
        simp at h
        rw [← h.2] at hp
        rcases walkAll_mem _ _ _ _ _ hw p hp with hnil | ⟨fs, hfs, hrest⟩
        · simp at hnil
        · exact ⟨fs, hfs, hrest⟩

theorem C7_init_not_atomic_witness :
    TemplateAdapterInit { adapterInitCE with templates := [("stale", tmplErrorPage)] } =
      (some "bad", ⟨".gtml", [fsCE], []⟩) :=
  (C7_init_not_atomic adapterInitCE "bad" ⟨".gtml", [fsCE], []⟩ rfl).1
    [("stale", tmplErrorPage)]

lemma hvRender_eq (s : HyperView) (w : HTTPWriter) (r : Request) (resp : Response) :
    s.Render w r resp =
      (if (renderStripped resp).headerGet "Content-Type" == "application/json" then
        s.RenderAs w r "json" (renderStripped resp)
      else if renderExt resp == "" || renderExt resp == ".html" then
        s.RenderAs w r "html" (renderStripped resp)
      else s.RenderAs w r (strTail (renderExt resp)) (renderStripped resp)) := rfl

lemma renderExt_shape (resp : Response) (h : renderExt resp ≠ "") :
    ∃ t : List Char, renderExt resp = String.mk ('.' :: t) ∧
      strTail (renderExt resp) = String.mk t ∧
      resp.templatePath = (renderStripped resp).templatePath ++ renderExt resp := by
  cases hs : splitAtLastDot resp.templatePath.data with
  | none =>
    exfalso
    apply h
    unfold renderExt lastDotSplit
    rw [hs]
    rfl
  | some pr =>
    have hre : renderExt resp = String.mk pr.2 := by
      unfold renderExt lastDotSplit
      rw [hs]
      rfl
    have hrs : (renderStripped resp).templatePath = String.mk pr.1 := by
      unfold renderStripped lastDotSplit
      rw [hs]
      rfl
    obtain ⟨⟨t, ht⟩, hcat⟩ := splitAtLastDot_spec _ pr.1 pr.2 hs
    refine ⟨t, ?_, ?_, ?_⟩
    · rw [hre, ht]
    · rw [hre, ht]
      rfl
    · rw [hre, hrs]
      apply String.ext
      rw [String.data_append]
      exact hcat

lemma strTail_empty_of (s : String) (hs : s = String.mk ['.']) :
    strTail s = "" := by
  rw [hs]
  rfl

/-- C1: Render picks the json adapter when the response carries the
application/json content type; otherwise an empty or html trailing
extension name picks the html adapter, and any other extension name picks
the adapter registered under that name (dot stripped), falling back to a
500 whose body carries the Adapter-not-found diagnostic when none is
registered; the extension, when present, is stripped from the template
path before the adapter is invoked. -/
theorem C1_dispatch_format_selection (s : HyperView) (w : HTTPWriter)
    (r : Request) (resp : Response) :
    (resp.headerGet "Content-Type" = "application/json" →
      s.Render w r resp = s.RenderAs w r "json" (renderStripped resp)) ∧
    (resp.headerGet "Content-Type" ≠ "application/json" →
      (strTail (renderExt resp) = "" ∨ strTail (renderExt resp) = "html" →
        s.Render w r resp = s.RenderAs w r "html" (renderStripped resp)) ∧
      (strTail (renderExt resp) ≠ "" → strTail (renderExt resp) ≠ "html" →
        s.Render w r resp =
          s.RenderAs w r (strTail (renderExt resp)) (renderStripped resp) ∧
        (s.Adapter (strTail (renderExt resp)) = none → w.status = none →
          (s.Render w r resp).status = some 500 ∧
          (s.Render w r resp).body = w.body ++ ("Adapter not found" ++ "\n")))) ∧
    (renderExt resp ≠ "" →
      resp.templatePath = (renderStripped resp).templatePath ++ renderExt resp) := by
  refine ⟨?_, ?_, ?_⟩
  · intro hct
    rw [hvRender_eq]
    have : ((renderStripped resp).headerGet "Content-Type" ==
        "application/json") = true := by
      rw [renderStripped_headerGet, hct]
      simp
    rw [if_pos this]
  · intro hct
    have hctb : ((renderStripped resp).headerGet "Content-Type" ==
        "application/json") = false := by
      rw [renderStripped_headerGet]
      exact beq_eq_false_iff_ne.mpr hct
    constructor
    · intro hname
      rw [hvRender_eq, if_neg (by simp [hctb])]
      by_cases hext : renderExt resp = ""
      · rw [if_pos (by simp [hext])]
      · obtain ⟨t, h1, h2, h3⟩ := renderExt_shape resp hext
        rcases hname with hname | hname
        · have ht : t = [] := by
            rw [h2] at hname
            have := congrArg String.data hname
            simpa using this
          have hdot : renderExt resp = String.mk ['.'] := by rw [h1, ht]
          rw [if_neg (by rw [hdot]; decide)]
          rw [h2, ht]
          exact renderAs_empty_key s w r (renderStripped resp)
        · have ht : t = "html".data := by
            rw [h2] at hname
            have := congrArg String.data hname
            simpa using this
          have hdot : renderExt resp = ".html" := by
            rw [h1, ht]
          rw [if_pos (by rw [hdot]; decide)]
    · intro hne1 hne2
      have hext : renderExt resp ≠ "" := by
        intro hx
        exact hne1 (by rw [hx]; rfl)
      obtain ⟨t, h1, h2, h3⟩ := renderExt_shape resp hext
      have hb1 : (renderExt resp == "") = false := by
        apply beq_eq_false_iff_ne.mpr
        exact hext
      have hb2 : (renderExt resp == ".html") = false := by
        apply beq_eq_false_iff_ne.mpr
        intro hx
        exact hne2 (by rw [hx]; rfl)
      have hmain : s.Render w r resp =
          s.RenderAs w r (strTail (renderExt resp)) (renderStripped resp) := by
        rw [hvRender_eq, if_neg (by simp [hctb]), if_neg (by simp [hb1, hb2])]
      refine ⟨hmain, ?_⟩
      intro hnone hw
      have hkeyb : (strTail (renderExt resp) == "") = false :=
        beq_eq_false_iff_ne.mpr hne1
      have hra : s.RenderAs w r (strTail (renderExt resp)) (renderStripped resp) =
          httpError w "Adapter not found" 500 := by
        unfold HyperView.RenderAs HyperView.adapterFor
        rw [hkeyb]
        simp only [Bool.false_eq_true, if_false]
        rw [hnone]
      rw [hmain, hra]
      exact ⟨httpError_status _ _ _ hw, httpError_body _ _ _⟩
  · intro hext
    obtain ⟨t, _, _, h3⟩ := renderExt_shape resp hext
    exact h3

theorem C1_dispatch_format_selection_witness :
    hvCE.Render HTTPWriter.empty reqPlain
        ((NewResponse.Path "sample").Header "Content-Type" "application/json") =
      hvCE.RenderAs HTTPWriter.empty reqPlain "json"
        (renderStripped
          ((NewResponse.Path "sample").Header "Content-Type" "application/json")) ∧
    hvCE.Render HTTPWriter.empty reqPlain (NewResponse.Path "sample.html") =
      hvCE.RenderAs HTTPWriter.empty reqPlain "html"
        (renderStripped (NewResponse.Path "sample.html")) ∧
    hvCE.Render HTTPWriter.empty reqPlain (NewResponse.Path "sample") =
      hvCE.RenderAs HTTPWriter.empty reqPlain "html"
        (renderStripped (NewResponse.Path "sample")) ∧
    hvCE.Render HTTPWriter.empty reqPlain (NewResponse.Path "sample.json") =
      hvCE.RenderAs HTTPWriter.empty reqPlain
        (strTail (renderExt (NewResponse.Path "sample.json")))
        (renderStripped (NewResponse.Path "sample.json")) ∧
    (hvCE.Render HTTPWriter.empty reqPlain (NewResponse.Path "sample.pdf")).status
      = some 500 ∧
    (hvCE.Render HTTPWriter.empty reqPlain (NewResponse.Path "sample.pdf")).body
      = "" ++ ("Adapter not found" ++ "\n") :=
  ⟨(C1_dispatch_format_selection hvCE HTTPWriter.empty reqPlain
      ((NewResponse.Path "sample").Header "Content-Type" "application/json")).1
      (by decide),
   ((C1_dispatch_format_selection hvCE HTTPWriter.empty reqPlain
      (NewResponse.Path "sample.html")).2.1 (by decide)).1 (Or.inr (by decide)),
   ((C1_dispatch_format_selection hvCE HTTPWriter.empty reqPlain
      (NewResponse.Path "sample")).2.1 (by decide)).1 (Or.inl (by decide)),
   (((C1_dispatch_format_selection hvCE HTTPWriter.empty reqPlain
      (NewResponse.Path "sample.json")).2.1 (by decide)).2 (by decide) (by decide)).1,
   ((((C1_dispatch_format_selection hvCE HTTPWriter.empty reqPlain
      (NewResponse.Path "sample.pdf")).2.1 (by decide)).2 (by decide) (by decide)).2
      rfl rfl).1,
   ((((C1_dispatch_format_selection hvCE HTTPWriter.empty reqPlain
      (NewResponse.Path "sample.pdf")).2.1 (by decide)).2 (by decide) (by decide)).2
      rfl rfl).2⟩

theorem C8_htmx_predicates_witness :
    IsHtmxRequest reqHtmx = true ∧
    IsHtmxRequest ⟨"GET", [("HX-Request", "true"), ("HX-Boosted", "true")]⟩ = false ∧
    IsAnyHtmxRequest ⟨"GET", [("HX-Boosted", "true")]⟩ = true :=
  ⟨(C8_htmx_predicates reqHtmx).1.mpr (by decide),
   Bool.not_eq_true _ ▸ (fun hc =>
     absurd (((C8_htmx_predicates
       ⟨"GET", [("HX-Request", "true"), ("HX-Boosted", "true")]⟩).1.mp hc).2)
       (by decide)),
   (C8_htmx_predicates ⟨"GET", [("HX-Boosted", "true")]⟩).2.mpr (Or.inr (by decide))⟩
